import Mathlib

/-!
Verification of the Moonbeam proof-of-concept AMM runtime module
(`runtime/src/moonbeam.rs`): a constant-product (x * y = k) market with a
0.3% fee, three asset ledgers (glmr, token, liquidity shares), pool
reserves, and a cached price snapshot.

The module is embedded shallowly: storage maps become `Account → Option ℕ`
(`None` models an absent key, read as zero), storage values become `ℕ`
fields of a state record, and each dispatchable becomes a function from a
state and arguments to a transaction result carrying the dispatch outcome,
the final state and the emitted events.  Origin checks (`ensure_root`,
`ensure_signed`) are the host's concern and are modelled as already
performed.
-/

namespace Moonbeam

/-- Modelled from the spec: the concrete `Balance` type instantiated by the
runtime is not part of the sources here (only the generic module is).  The
spec describes `Balance` as a fixed-width unsigned integer whose
multiplication-heavy formulas are widened "to a double-width intermediate",
and the code widens to `u128`; the native balance width is therefore 64
bits.  `BMAX` is the first value that does not fit a balance. -/
def BMAX : ℕ := 2 ^ 64

/-- First value that does not fit the `u128` intermediate type. -/
def UMAX : ℕ := 2 ^ 128

/-- `Balance::checked_add`: `none` exactly when the sum overflows. -/
def checkedAdd (a b : ℕ) : Option ℕ :=
  if a + b < BMAX then some (a + b) else none

/-- `Balance::saturating_add`: clamps at the largest balance. -/
def satAdd (a b : ℕ) : ℕ := min (a + b) (BMAX - 1)

/-- Native balance multiplication as compiled without overflow checks:
wraps modulo the balance width. -/
def rawMul (a b : ℕ) : ℕ := a * b % BMAX

/-- Native balance addition as compiled without overflow checks. -/
def rawAdd (a b : ℕ) : ℕ := (a + b) % BMAX

/-- `TryInto::<u128>::try_into` on a balance value. -/
def tryIntoU128 (a : ℕ) : Option ℕ :=
  if a < UMAX then some a else none

/-- `u128::checked_mul`. -/
def u128CheckedMul (a b : ℕ) : Option ℕ :=
  if a * b < UMAX then some (a * b) else none

/-- `u128::checked_add`. -/
def u128CheckedAdd (a b : ℕ) : Option ℕ :=
  if a + b < UMAX then some (a + b) else none

/-- `u128::checked_div`: `none` exactly on division by zero. -/
def u128CheckedDiv (a b : ℕ) : Option ℕ :=
  if b = 0 then none else some (a / b)

/-- `u128 → Balance` conversion, `try_into().ok()`. -/
def tryIntoBalance (a : ℕ) : Option ℕ :=
  if a < BMAX then some a else none

/-- A storage map `map T::AccountId => T::Balance`: absent keys read as
zero but existence is observable (`::exists`). -/
def Ledger (A : Type) : Type := A → Option ℕ

/-- `map.get`: the balance of an account, zero when the key is absent. -/
def balOf {A : Type} (m : Ledger A) (a : A) : ℕ := (m a).getD 0

/-- `map::insert`. -/
def mapInsert {A : Type} [DecidableEq A] (m : Ledger A) (a : A) (v : ℕ) :
    Ledger A :=
  fun b => if b = a then some v else m b

/-- `map::exists`. -/
def keyExists {A : Type} (m : Ledger A) (a : A) : Bool := (m a).isSome

/-- The `Moonbeam` storage: three balance maps, the two pool reserves, the
total liquid supply and the two cached prices. -/
structure St (A : Type) where
  glmrBalances : Ledger A
  glmrPoolBalance : ℕ
  tokenBalances : Ledger A
  tokenPoolBalance : ℕ
  liquidBalances : Ledger A
  totalLiquidSupply : ℕ
  tokenPrice : ℕ
  glmrPrice : ℕ

/-- The events of `decl_event!`. -/
inductive Event (A : Type) where
  | TokenPurchase (who : A) (amount : ℕ)
  | GlmrPurchase (who : A) (amount : ℕ)
  | DepositLiquidity (who : A) (amount : ℕ)
  | WithdrawLiquidity (who : A) (amount : ℕ)
  deriving DecidableEq

/-- Outcome of one dispatch: the `dispatch::Result`, the storage state
after the call, and the events deposited by it. -/
structure Tx (A : Type) where
  res : Except String Unit
  state : St A
  events : List (Event A)

/-- An error exit: the state accumulated so far is kept, no event. -/
def txErr {A : Type} (s : St A) (msg : String) : Tx A :=
  ⟨Except.error msg, s, []⟩

/-- A successful exit. -/
def txOk {A : Type} (s : St A) (evs : List (Event A)) : Tx A :=
  ⟨Except.ok (), s, evs⟩

/-- `get_price`: the fee-bearing constant-product quote, computed in
checked `u128` arithmetic exactly as in the source. -/
def get_price (amount input_reserve output_reserve : ℕ) : Option ℕ :=
  if amount ≤ 0 ∨ input_reserve ≤ 0 ∨ output_reserve ≤ 0 then none
  else
    match tryIntoU128 amount with
    | none => none
    | some amount128 =>
      match u128CheckedMul amount128 997 with
      | none => none
      | some net_amount =>
        match tryIntoU128 output_reserve with
        | none => none
        | some out128 =>
          match u128CheckedMul out128 net_amount with
          | none => none
          | some numerator =>
            match tryIntoU128 input_reserve with
            | none => none
            | some in128 =>
              match u128CheckedMul in128 1000 with
              | none => none
              | some scaled_in =>
                match u128CheckedAdd scaled_in net_amount with
                | none => none
                | some denominator =>
                  match u128CheckedDiv numerator denominator with
                  | none => none
                  | some result => tryIntoBalance result

/-- The canonical quoting amount of `update_prices`,
`1000000000000u128.try_into().unwrap_or(0)`. -/
def priceUnit : ℕ := if 1000000000000 < BMAX then 1000000000000 else 0

/-- `update_prices`: recompute both cached prices from the current
reserves; write them only when both quotes succeed. -/
def update_prices {A : Type} (s : St A) : St A :=
  let glmr_price := get_price priceUnit s.tokenPoolBalance s.glmrPoolBalance
  let token_price := get_price priceUnit s.glmrPoolBalance s.tokenPoolBalance
  match glmr_price, token_price with
  | some gp, some tp => { s with glmrPrice := gp, tokenPrice := tp }
  | _, _ => s

/-- `set_glmr_balance`: root-only unconditional overwrite. -/
def set_glmr_balance {A : Type} [DecidableEq A] (s : St A) (account : A)
    (value : ℕ) : Tx A :=
  txOk { s with glmrBalances := mapInsert s.glmrBalances account value } []

/-- `set_token_balance`: root-only unconditional overwrite. -/
def set_token_balance {A : Type} [DecidableEq A] (s : St A) (account : A)
    (value : ℕ) : Tx A :=
  txOk { s with tokenBalances := mapInsert s.tokenBalances account value } []

/-- `transfer_glmr`: root-only transfer between glmr accounts.  Note the
strict `from_balance > amount` check and the saturating credit, both as in
the source. -/
def transfer_glmr {A : Type} [DecidableEq A] (s : St A) (src dst : A)
    (amount : ℕ) : Tx A :=
  if keyExists s.glmrBalances src then
    let from_balance := balOf s.glmrBalances src
    if from_balance > amount then
      let to_balance := balOf s.glmrBalances dst
      let s1 := { s with
        glmrBalances := mapInsert s.glmrBalances src (from_balance - amount) }
      let s2 := { s1 with
        glmrBalances := mapInsert s1.glmrBalances dst (satAdd to_balance amount) }
      txOk s2 []
    else txErr s "Not enough glmr for transfer"
  else txErr s "Glmr from account does not exist"

/-- `transfer_token`: root-only transfer between token accounts. -/
def transfer_token {A : Type} [DecidableEq A] (s : St A) (src dst : A)
    (amount : ℕ) : Tx A :=
  if keyExists s.tokenBalances src then
    let from_balance := balOf s.tokenBalances src
    if from_balance > amount then
      let to_balance := balOf s.tokenBalances dst
      let s1 := { s with
        tokenBalances := mapInsert s.tokenBalances src (from_balance - amount) }
      let s2 := { s1 with
        tokenBalances := mapInsert s1.tokenBalances dst (satAdd to_balance amount) }
      txOk s2 []
    else txErr s "Not enough token for transfer"
  else txErr s "Token from account does not exist"

/-- `transfer_liquid`: root-only transfer between liquidity accounts. -/
def transfer_liquid {A : Type} [DecidableEq A] (s : St A) (src dst : A)
    (amount : ℕ) : Tx A :=
  if keyExists s.liquidBalances src then
    let from_balance := balOf s.liquidBalances src
    if from_balance > amount then
      let to_balance := balOf s.liquidBalances dst
      let s1 := { s with
        liquidBalances := mapInsert s.liquidBalances src (from_balance - amount) }
      let s2 := { s1 with
        liquidBalances := mapInsert s1.liquidBalances dst (satAdd to_balance amount) }
      txOk s2 []
    else txErr s "Not enough liquid for transfer"
  else txErr s "Liquid from account does not exist"

/-- `deposit_liquidity`: bootstrap the pool when the liquid supply is zero,
otherwise deposit proportionally.  The proportional formulas use the
source's raw (unchecked) balance multiplication and division. -/
def deposit_liquidity {A : Type} [DecidableEq A] (s : St A) (sender : A)
    (glmr_value token_value : ℕ) : Tx A :=
  let sender_glmr_balance := balOf s.glmrBalances sender
  if sender_glmr_balance ≥ glmr_value then
    let sender_token_balance := balOf s.tokenBalances sender
    if sender_token_balance ≥ token_value then
      let total_liquid_supply := s.totalLiquidSupply
      let glmr_reserve := s.glmrPoolBalance
      let token_reserve := s.tokenPoolBalance
      if total_liquid_supply > 0 then
        if glmr_reserve > 0 then
          let token_amount := rawAdd (rawMul glmr_value token_reserve / glmr_reserve) 1
          if token_amount ≤ sender_token_balance then
            let liquid_minted := rawMul glmr_value total_liquid_supply / glmr_reserve
            match checkedAdd glmr_reserve glmr_value with
            | none => txErr s "Glmr reserve balance overflow"
            | some glmr_newbal =>
              match checkedAdd token_reserve token_amount with
              | none => txErr s "Token reserve balance overflow"
              | some token_newbal =>
                let sender_liquid_balance := balOf s.liquidBalances sender
                match checkedAdd sender_liquid_balance liquid_minted with
                | none => txErr s "User liquid balance overflow"
                | some liquid_newbal =>
                  match checkedAdd total_liquid_supply liquid_minted with
                  | none => txErr s "Liquid supply balance overflow"
                  | some liquid_supply_newbal =>
                    let s1 := { s with
                      glmrBalances :=
                        mapInsert s.glmrBalances sender (sender_glmr_balance - glmr_value),
                      glmrPoolBalance := glmr_newbal }
                    let s2 := { s1 with
                      tokenBalances :=
                        mapInsert s1.tokenBalances sender (sender_token_balance - token_amount),
                      tokenPoolBalance := token_newbal }
                    let s3 := { s2 with
                      liquidBalances := mapInsert s2.liquidBalances sender liquid_newbal,
                      totalLiquidSupply := liquid_supply_newbal }
                    txOk (update_prices s3) [Event.DepositLiquidity sender liquid_minted]
          else txErr s "You do not have enough tokens to complete the deposit"
        else txErr s "There is liquidity in this exchange but the glmr reserve is empty"
      else
        let liquid_minted := glmr_value
        let s1 := { s with
          glmrPoolBalance := glmr_value,
          glmrBalances := mapInsert s.glmrBalances sender (sender_glmr_balance - glmr_value) }
        let s2 := { s1 with
          tokenPoolBalance := token_value,
          tokenBalances := mapInsert s1.tokenBalances sender (sender_token_balance - token_value) }
        let s3 := { s2 with
          totalLiquidSupply := liquid_minted,
          liquidBalances := mapInsert s2.liquidBalances sender liquid_minted }
        txOk (update_prices s3) [Event.DepositLiquidity sender liquid_minted]
    else txErr s "Not enough tokens to cover liquidity deposit"
  else txErr s "Not enough glmr to cover liquidity deposit"

/-- `withdraw_liquidity`: redeem liquid tokens for a proportional share of
both reserves.  The redemption formulas use the source's raw balance
multiplication and division. -/
def withdraw_liquidity {A : Type} [DecidableEq A] (s : St A) (sender : A)
    (liquid_value : ℕ) : Tx A :=
  let total_liquid_supply := s.totalLiquidSupply
  if total_liquid_supply > 0 ∧ liquid_value ≤ total_liquid_supply then
    let glmr_reserve := s.glmrPoolBalance
    let token_reserve := s.tokenPoolBalance
    let glmr_amount := rawMul liquid_value glmr_reserve / total_liquid_supply
    let token_amount := rawMul liquid_value token_reserve / total_liquid_supply
    let sender_liquid_balance := balOf s.liquidBalances sender
    if liquid_value ≤ sender_liquid_balance then
      let sender_glmr_balance := balOf s.glmrBalances sender
      if glmr_amount ≤ glmr_reserve then
        let sender_token_balance := balOf s.tokenBalances sender
        if token_amount ≤ token_reserve then
          match checkedAdd sender_glmr_balance glmr_amount with
          | none => txErr s "Glmr user balance overflow"
          | some glmr_newbal =>
            match checkedAdd sender_token_balance token_amount with
            | none => txErr s "Token user balance overflow"
            | some token_newbal =>
              let s1 := { s with
                liquidBalances :=
                  mapInsert s.liquidBalances sender (sender_liquid_balance - liquid_value),
                totalLiquidSupply := total_liquid_supply - liquid_value }
              let s2 := { s1 with
                glmrBalances := mapInsert s1.glmrBalances sender glmr_newbal,
                glmrPoolBalance := glmr_reserve - glmr_amount }
              let s3 := { s2 with
                tokenBalances := mapInsert s2.tokenBalances sender token_newbal,
                tokenPoolBalance := token_reserve - token_amount }
              txOk (update_prices s3) [Event.WithdrawLiquidity sender liquid_value]
        else txErr s "Trying to withdraw more Token than is in the pool"
      else txErr s "Trying to withdraw more GLMR than is in the pool"
    else txErr s "Trying to withdraw more than owned liquidity"
  else txErr s "Not enough liquidity in pool to withdraw"

/-- `trade_glmr_to_token`: swap glmr into the pool for tokens at the
constant-product quote. -/
def trade_glmr_to_token {A : Type} [DecidableEq A] (s : St A) (sender : A)
    (glmr_value : ℕ) : Tx A :=
  let glmr_reserve := s.glmrPoolBalance
  let token_reserve := s.tokenPoolBalance
  match get_price glmr_value glmr_reserve token_reserve with
  | none => txErr s "Error caluculating number of tokens in trade"
  | some tokens_bought =>
    let sender_glmr_balance := balOf s.glmrBalances sender
    if sender_glmr_balance ≥ glmr_value then
      let sender_token_balance := balOf s.tokenBalances sender
      if token_reserve ≥ tokens_bought then
        match checkedAdd glmr_reserve glmr_value with
        | none => txErr s "GLMR pool balance overflow"
        | some glmr_pool_newbal =>
          match checkedAdd sender_token_balance tokens_bought with
          | none => txErr s "User token balance overflow"
          | some token_newbal =>
            let s1 := { s with
              glmrBalances :=
                mapInsert s.glmrBalances sender (sender_glmr_balance - glmr_value),
              glmrPoolBalance := glmr_pool_newbal }
            let s2 := { s1 with
              tokenBalances := mapInsert s1.tokenBalances sender token_newbal,
              tokenPoolBalance := token_reserve - tokens_bought }
            txOk (update_prices s2) [Event.TokenPurchase sender tokens_bought]
      else txErr s "Not enough tokens to execute trade"
    else txErr s "Not enough glmr to execute trade"

/-- `trade_token_to_glmr`: swap tokens into the pool for glmr at the
constant-product quote. -/
def trade_token_to_glmr {A : Type} [DecidableEq A] (s : St A) (sender : A)
    (token_value : ℕ) : Tx A :=
  let glmr_reserve := s.glmrPoolBalance
  let token_reserve := s.tokenPoolBalance
  match get_price token_value token_reserve glmr_reserve with
  | none => txErr s "Error caluculating number of GLMR in trade"
  | some glmr_bought =>
    let sender_token_balance := balOf s.tokenBalances sender
    if sender_token_balance ≥ token_value then
      let sender_glmr_balance := balOf s.glmrBalances sender
      if glmr_reserve ≥ glmr_bought then
        match checkedAdd token_reserve token_value with
        | none => txErr s "Token pool balance overflow"
        | some token_pool_newbal =>
          match checkedAdd sender_glmr_balance glmr_bought with
          | none => txErr s "User GLMR balance overflow"
          | some glmr_newbal =>
            let s1 := { s with
              tokenBalances :=
                mapInsert s.tokenBalances sender (sender_token_balance - token_value),
              tokenPoolBalance := token_pool_newbal }
            let s2 := { s1 with
              glmrBalances := mapInsert s1.glmrBalances sender glmr_newbal,
              glmrPoolBalance := glmr_reserve - glmr_bought }
            txOk (update_prices s2) [Event.GlmrPurchase sender glmr_bought]
      else txErr s "Not enough glmr to execute trade"
    else txErr s "Not enough tokens to execute trade"

/-- One dispatchable call with its arguments. -/
inductive Op (A : Type) where
  | setGlmrBalance (account : A) (value : ℕ)
  | setTokenBalance (account : A) (value : ℕ)
  | transferGlmr (src dst : A) (amount : ℕ)
  | transferToken (src dst : A) (amount : ℕ)
  | transferLiquid (src dst : A) (amount : ℕ)
  | depositLiquidity (sender : A) (glmr_value token_value : ℕ)
  | withdrawLiquidity (sender : A) (liquid_value : ℕ)
  | tradeGlmrToToken (sender : A) (glmr_value : ℕ)
  | tradeTokenToGlmr (sender : A) (token_value : ℕ)

/-- Dispatch one call against a state. -/
def applyOp {A : Type} [DecidableEq A] (s : St A) : Op A → Tx A
  | Op.setGlmrBalance account value => set_glmr_balance s account value
  | Op.setTokenBalance account value => set_token_balance s account value
  | Op.transferGlmr src dst amount => transfer_glmr s src dst amount
  | Op.transferToken src dst amount => transfer_token s src dst amount
  | Op.transferLiquid src dst amount => transfer_liquid s src dst amount
  | Op.depositLiquidity sender gv tv => deposit_liquidity s sender gv tv
  | Op.withdrawLiquidity sender lv => withdraw_liquidity s sender lv
  | Op.tradeGlmrToToken sender gv => trade_glmr_to_token s sender gv
  | Op.tradeTokenToGlmr sender tv => trade_token_to_glmr s sender tv

/-- Reachability by committed (successfully dispatched) operations. -/
inductive Reaches {A : Type} [DecidableEq A] : St A → St A → Prop where
  | refl (s : St A) : Reaches s s
  | step {s t : St A} (op : Op A) (h : Reaches s t)
      (hok : (applyOp t op).res = Except.ok ()) :
      Reaches s (applyOp t op).state

/-- The initial all-zero storage: empty maps, zero values. -/
def initSt (A : Type) : St A :=
  ⟨fun _ => none, 0, fun _ => none, 0, fun _ => none, 0, 0, 0⟩

/-- Sum of the balances recorded in a ledger. -/
def sumBal {A : Type} [Fintype A] (m : Ledger A) : ℕ :=
  ∑ a, balOf m a

/-- Total glmr in existence: account balances plus the pool reserve. -/
def glmrTotal {A : Type} [Fintype A] (s : St A) : ℕ :=
  sumBal s.glmrBalances + s.glmrPoolBalance

/-- Total token in existence: account balances plus the pool reserve. -/
def tokenTotal {A : Type} [Fintype A] (s : St A) : ℕ :=
  sumBal s.tokenBalances + s.tokenPoolBalance

/-! ### Concrete fixture states (two accounts, `Fin 2`) -/

/-- Account 0 holds 5 glmr; nothing else exists. -/
def selfTransferSt : St (Fin 2) :=
  { initSt (Fin 2) with
    glmrBalances := mapInsert (initSt (Fin 2)).glmrBalances 0 5 }

/-- Account 0 holds 5 glmr and 5 token; the pool is uninitialized. -/
def pairSt : St (Fin 2) :=
  { initSt (Fin 2) with
    glmrBalances := mapInsert (initSt (Fin 2)).glmrBalances 0 5,
    tokenBalances := mapInsert (initSt (Fin 2)).tokenBalances 0 5 }

/-- A live pool with reserves (1000, 1000); account 0 holds 100 glmr. -/
def tradeFixtureSt : St (Fin 2) :=
  { initSt (Fin 2) with
    glmrBalances := mapInsert (initSt (Fin 2)).glmrBalances 0 100,
    glmrPoolBalance := 1000, tokenPoolBalance := 1000 }

/-- A pool state on which the proportional-deposit formula
`glmr_value * token_reserve` mathematically overflows the balance width:
reserves `(1, 2^32)`, supply 1, account 0 holding `2^32` glmr and 1 token. -/
def overflowSt : St (Fin 2) :=
  { initSt (Fin 2) with
    glmrBalances := mapInsert (initSt (Fin 2)).glmrBalances 0 (2 ^ 32),
    tokenBalances := mapInsert (initSt (Fin 2)).tokenBalances 0 1,
    glmrPoolBalance := 1, tokenPoolBalance := 2 ^ 32, totalLiquidSupply := 1 }

/-- Reached from the initial state by `set_token_balance(0, 5)`. -/
def tokenOnlySt : St (Fin 2) := (set_token_balance (initSt (Fin 2)) 0 5).state

/-- Reached from the initial state by `set_glmr_balance(0, 5)`. -/
def glmrOnlySt : St (Fin 2) := (set_glmr_balance (initSt (Fin 2)) 0 5).state

/-- Reached from `glmrOnlySt` by `deposit_liquidity(0, 5, 0)`: a bootstrap
deposit carrying no tokens at all. -/
def lopsidedPoolSt : St (Fin 2) := (deposit_liquidity glmrOnlySt 0 5 0).state

/-- Account 0 holds exactly 5 of each of the three assets. -/
def fullBalanceSt : St (Fin 2) :=
  { initSt (Fin 2) with
    glmrBalances := mapInsert (initSt (Fin 2)).glmrBalances 0 5,
    tokenBalances := mapInsert (initSt (Fin 2)).tokenBalances 0 5,
    liquidBalances := mapInsert (initSt (Fin 2)).liquidBalances 0 5 }

/-- Reached from the initial state by the two privileged set-balance calls
giving account 0 five glmr and five token. -/
def seededSt : St (Fin 2) :=
  (set_token_balance (set_glmr_balance (initSt (Fin 2)) 0 5).state 0 5).state

/-- Reached from `seededSt` by the bootstrap `deposit_liquidity(0, 5, 5)`:
a live pool with reserves (5, 5) and liquid supply 5. -/
def seededPoolSt : St (Fin 2) := (deposit_liquidity seededSt 0 5 5).state

/-! ### Arithmetic helper lemmas -/

lemma checkedAdd_some {a b c : ℕ} (h : checkedAdd a b = some c) :
    c = a + b ∧ a + b < BMAX := by
  unfold checkedAdd at h
  split at h
  · exact ⟨(Option.some.injEq _ _ ▸ h).symm, by assumption⟩
  · exact absurd h (by simp)

lemma tryIntoU128_some {a b : ℕ} (h : tryIntoU128 a = some b) :
    b = a ∧ a < UMAX := by
  unfold tryIntoU128 at h
  split at h
  · exact ⟨(Option.some.injEq _ _ ▸ h).symm, by assumption⟩
  · exact absurd h (by simp)

lemma u128CheckedMul_some {a b c : ℕ} (h : u128CheckedMul a b = some c) :
    c = a * b ∧ a * b < UMAX := by
  unfold u128CheckedMul at h
  split at h
  · exact ⟨(Option.some.injEq _ _ ▸ h).symm, by assumption⟩
  · exact absurd h (by simp)

lemma u128CheckedAdd_some {a b c : ℕ} (h : u128CheckedAdd a b = some c) :
    c = a + b ∧ a + b < UMAX := by
  unfold u128CheckedAdd at h
  split at h
  · exact ⟨(Option.some.injEq _ _ ▸ h).symm, by assumption⟩
  · exact absurd h (by simp)

lemma u128CheckedDiv_some {a b c : ℕ} (h : u128CheckedDiv a b = some c) :
    c = a / b ∧ b ≠ 0 := by
  unfold u128CheckedDiv at h
  split at h
  · exact absurd h (by simp)
  · exact ⟨(Option.some.injEq _ _ ▸ h).symm, by assumption⟩

lemma tryIntoBalance_some {a b : ℕ} (h : tryIntoBalance a = some b) :
    b = a ∧ a < BMAX := by
  unfold tryIntoBalance at h
  split at h
  · exact ⟨(Option.some.injEq _ _ ▸ h).symm, by assumption⟩
  · exact absurd h (by simp)

lemma tryIntoU128_pos {a : ℕ} (h : a < UMAX) : tryIntoU128 a = some a :=
  if_pos h

lemma u128CheckedMul_pos {a b : ℕ} (h : a * b < UMAX) :
    u128CheckedMul a b = some (a * b) :=
  if_pos h

lemma u128CheckedAdd_pos {a b : ℕ} (h : a + b < UMAX) :
    u128CheckedAdd a b = some (a + b) :=
  if_pos h

lemma u128CheckedDiv_pos {a b : ℕ} (h : b ≠ 0) :
    u128CheckedDiv a b = some (a / b) :=
  if_neg h

lemma tryIntoBalance_pos {a : ℕ} (h : a < BMAX) : tryIntoBalance a = some a :=
  if_pos h

/-! ### Characterisation of the pricing function -/

/-- Inversion: a successful quote means positive inputs and the exact
integer constant-product formula. -/
lemma get_price_some {x g t v : ℕ} (h : get_price x g t = some v) :
    0 < x ∧ 0 < g ∧ 0 < t ∧
      v = t * (x * 997) / (g * 1000 + x * 997) ∧ v < BMAX := by
  unfold get_price at h
  split at h
  · exact absurd h (by simp)
  next hpos =>
    push_neg at hpos
    obtain ⟨hx, hg, ht⟩ := hpos
    split at h
    next => exact absurd h (by simp)
    next amount128 ha =>
      obtain ⟨rfl, -⟩ := tryIntoU128_some ha
      split at h
      next => exact absurd h (by simp)
      next net_amount hn =>
        obtain ⟨rfl, -⟩ := u128CheckedMul_some hn
        split at h
        next => exact absurd h (by simp)
        next out128 ho =>
          obtain ⟨rfl, -⟩ := tryIntoU128_some ho
          split at h
          next => exact absurd h (by simp)
          next numerator hnum =>
            obtain ⟨rfl, -⟩ := u128CheckedMul_some hnum
            split at h
            next => exact absurd h (by simp)
            next in128 hin =>
              obtain ⟨rfl, -⟩ := tryIntoU128_some hin
              split at h
              next => exact absurd h (by simp)
              next scaled_in hsc =>
                obtain ⟨rfl, -⟩ := u128CheckedMul_some hsc
                split at h
                next => exact absurd h (by simp)
                next denominator hden =>
                  obtain ⟨rfl, -⟩ := u128CheckedAdd_some hden
                  split at h
                  next => exact absurd h (by simp)
                  next result hres =>
                    obtain ⟨rfl, -⟩ := u128CheckedDiv_some hres
                    obtain ⟨rfl, hlt⟩ := tryIntoBalance_some h
                    exact ⟨hx, hg, ht, rfl, hlt⟩

/-- Forward direction: within the widened arithmetic range the quote is
exactly the fee-adjusted constant-product formula. -/
lemma get_price_formula {x g t : ℕ} (hx : 0 < x) (hg : 0 < g) (ht : 0 < t)
    (h1 : x * 997 < UMAX) (h2 : t * (x * 997) < UMAX)
    (h3 : g * 1000 + x * 997 < UMAX)
    (h4 : t * (x * 997) / (g * 1000 + x * 997) < BMAX) :
    get_price x g t = some (t * (x * 997) / (g * 1000 + x * 997)) := by
  have hx997 : x ≤ x * 997 := Nat.le_mul_of_pos_right x (by norm_num)
  have hxU : x < UMAX := lt_of_le_of_lt hx997 h1
  have htx : t ≤ t * (x * 997) := Nat.le_mul_of_pos_right t (by positivity)
  have htU : t < UMAX := lt_of_le_of_lt htx h2
  have hg1000 : g ≤ g * 1000 := Nat.le_mul_of_pos_right g (by norm_num)
  have hgmul : g * 1000 < UMAX := by omega
  have hgU : g < UMAX := lt_of_le_of_lt hg1000 hgmul
  unfold get_price
  rw [if_neg (by omega)]
  split
  next ha => rw [tryIntoU128_pos hxU] at ha; exact absurd ha (by simp)
  next amount128 ha =>
    obtain ⟨rfl, -⟩ := tryIntoU128_some ha
    split
    next hn => rw [u128CheckedMul_pos h1] at hn; exact absurd hn (by simp)
    next net_amount hn =>
      obtain ⟨rfl, -⟩ := u128CheckedMul_some hn
      split
      next ho => rw [tryIntoU128_pos htU] at ho; exact absurd ho (by simp)
      next out128 ho =>
        obtain ⟨rfl, -⟩ := tryIntoU128_some ho
        split
        next hnum => rw [u128CheckedMul_pos h2] at hnum; exact absurd hnum (by simp)
        next numerator hnum =>
          obtain ⟨rfl, -⟩ := u128CheckedMul_some hnum
          split
          next hin => rw [tryIntoU128_pos hgU] at hin; exact absurd hin (by simp)
          next in128 hin =>
            obtain ⟨rfl, -⟩ := tryIntoU128_some hin
            split
            next hsc => rw [u128CheckedMul_pos hgmul] at hsc; exact absurd hsc (by simp)
            next scaled_in hsc =>
              obtain ⟨rfl, -⟩ := u128CheckedMul_some hsc
              split
              next hden => rw [u128CheckedAdd_pos h3] at hden; exact absurd hden (by simp)
              next denominator hden =>
                obtain ⟨rfl, -⟩ := u128CheckedAdd_some hden
                split
                next hres =>
                  rw [u128CheckedDiv_pos (by omega)] at hres
                  exact absurd hres (by simp)
                next result hres =>
                  obtain ⟨rfl, -⟩ := u128CheckedDiv_some hres
                  exact tryIntoBalance_pos h4

/-- The quoted output is strictly below the output reserve. -/
lemma get_price_lt_output {x g t v : ℕ} (h : get_price x g t = some v) :
    v < t := by
  obtain ⟨hx, hg, ht, hv, -⟩ := get_price_some h
  have hDpos : 0 < g * 1000 + x * 997 := by positivity
  rw [hv, Nat.div_lt_iff_lt_mul hDpos]
  have hgl : 0 < g * 1000 := by positivity
  have hlt : x * 997 < g * 1000 + x * 997 := by omega
  exact (Nat.mul_lt_mul_left ht).2 hlt

/-- A successful swap quote strictly grows the reserve product: the
retained 0.3% fee makes the post-trade product exceed the pre-trade one. -/
lemma product_grows {g t x v : ℕ} (hg : 0 < g) (ht : 0 < t) (hx : 0 < x)
    (hv : v = t * (x * 997) / (g * 1000 + x * 997)) (hvt : v < t) :
    g * t < (g + x) * (t - v) := by
  have hDpos : 0 < g * 1000 + x * 997 := by positivity
  have hle : v * (g * 1000 + x * 997) ≤ t * (x * 997) := by
    rw [hv]; exact Nat.div_mul_le_self _ _
  have hkey : (g + x) * v < x * t := by
    rcases Nat.eq_zero_or_pos v with hv0 | hv1
    · rw [hv0, Nat.mul_zero]; positivity
    · have h997 : 997 * ((g + x) * v) < 997 * (x * t) := by
        calc 997 * ((g + x) * v) = v * (g * 997 + x * 997) := by ring
          _ < v * (g * 1000 + x * 997) := by gcongr; omega
          _ ≤ t * (x * 997) := hle
          _ = 997 * (x * t) := by ring
      exact lt_of_mul_lt_mul_left h997 (Nat.zero_le _)
  have hsplit : (g + x) * (t - v) + (g + x) * v = (g + x) * t := by
    rw [← Nat.mul_add, Nat.sub_add_cancel hvt.le]
  have hexp : (g + x) * t = g * t + x * t := by ring
  linarith [hsplit, hexp, hkey]

/-! ### Price snapshot lemmas -/

lemma update_prices_glmrBalances {A : Type} (s : St A) :
    (update_prices s).glmrBalances = s.glmrBalances := by
  simp only [update_prices]
  split <;> rfl

lemma update_prices_tokenBalances {A : Type} (s : St A) :
    (update_prices s).tokenBalances = s.tokenBalances := by
  simp only [update_prices]
  split <;> rfl

lemma update_prices_liquidBalances {A : Type} (s : St A) :
    (update_prices s).liquidBalances = s.liquidBalances := by
  simp only [update_prices]
  split <;> rfl

lemma update_prices_glmrPoolBalance {A : Type} (s : St A) :
    (update_prices s).glmrPoolBalance = s.glmrPoolBalance := by
  simp only [update_prices]
  split <;> rfl

lemma update_prices_tokenPoolBalance {A : Type} (s : St A) :
    (update_prices s).tokenPoolBalance = s.tokenPoolBalance := by
  simp only [update_prices]
  split <;> rfl

lemma update_prices_totalLiquidSupply {A : Type} (s : St A) :
    (update_prices s).totalLiquidSupply = s.totalLiquidSupply := by
  simp only [update_prices]
  split <;> rfl

/-! ### Ledger sum lemmas -/

lemma balOf_mapInsert_self {A : Type} [DecidableEq A] (m : Ledger A) (a : A)
    (v : ℕ) : balOf (mapInsert m a v) a = v := by
  unfold balOf mapInsert
  simp

lemma balOf_mapInsert_ne {A : Type} [DecidableEq A] (m : Ledger A) {a b : A}
    (v : ℕ) (h : b ≠ a) : balOf (mapInsert m a v) b = balOf m b := by
  unfold balOf mapInsert
  simp [h]

lemma sumBal_mapInsert {A : Type} [DecidableEq A] [Fintype A] (m : Ledger A)
    (a : A) (v : ℕ) :
    sumBal (mapInsert m a v) + balOf m a = sumBal m + v := by
  unfold sumBal
  have hfun : ∀ b, balOf (mapInsert m a v) b = Function.update (balOf m) a v b := by
    intro b
    rw [Function.update_apply]
    unfold balOf mapInsert
    split <;> simp_all
  calc (∑ b, balOf (mapInsert m a v) b) + balOf m a
      = (∑ b, Function.update (balOf m) a v b) + balOf m a :=
        congrArg (· + balOf m a) (Finset.sum_congr rfl fun b _ => hfun b)
    _ = (v + ∑ b ∈ Finset.univ \ {a}, balOf m b) + balOf m a := by
        rw [Finset.sum_update_of_mem (Finset.mem_univ a)]
    _ = (balOf m a + ∑ b ∈ Finset.univ.erase a, balOf m b) + v := by
        rw [Finset.erase_eq]; ring
    _ = (∑ b, balOf m b) + v := by
        rw [Finset.add_sum_erase _ _ (Finset.mem_univ a)]

lemma balOf_le_sumBal {A : Type} [Fintype A] (m : Ledger A) (a : A) :
    balOf m a ≤ sumBal m :=
  Finset.single_le_sum (fun b _ => Nat.zero_le (balOf m b)) (Finset.mem_univ a)

/-! ### Claim theorems -/

/-- C8: `get_price` returns the no-price sentinel whenever the amount or a
reserve is zero, and for positive inputs whose widened 128-bit intermediates
do not overflow and whose result fits a balance it returns exactly
`floor(997 * amount * output_reserve / (1000 * input_reserve + 997 * amount))`. -/
theorem get_price_sentinel_and_formula :
    (∀ x g t : ℕ, x = 0 ∨ g = 0 ∨ t = 0 → get_price x g t = none) ∧
    (∀ x g t : ℕ, 0 < x → 0 < g → 0 < t →
      997 * x < UMAX → 997 * x * t < UMAX → 1000 * g + 997 * x < UMAX →
      997 * x * t / (1000 * g + 997 * x) < BMAX →
      get_price x g t = some (997 * x * t / (1000 * g + 997 * x))) := by
  constructor
  · intro x g t h
    unfold get_price
    rw [if_pos (by omega)]
  · intro x g t hx hg ht h1 h2 h3 h4
    have h1' : x * 997 < UMAX := by rwa [Nat.mul_comm]
    have h2' : t * (x * 997) < UMAX := by
      rwa [show t * (x * 997) = 997 * x * t by ring]
    have h3' : g * 1000 + x * 997 < UMAX := by
      rwa [show g * 1000 + x * 997 = 1000 * g + 997 * x by ring]
    have h4' : t * (x * 997) / (g * 1000 + x * 997) < BMAX := by
      rwa [show t * (x * 997) = 997 * x * t by ring,
        show g * 1000 + x * 997 = 1000 * g + 997 * x by ring]
    have key := get_price_formula hx hg ht h1' h2' h3' h4'
    rwa [show t * (x * 997) = 997 * x * t by ring,
      show g * 1000 + x * 997 = 1000 * g + 997 * x by ring] at key

/-- Witness for C8: a zero amount is rejected, and at `(100, 1000, 1000)`
the quote is exactly the fee formula. -/
theorem get_price_sentinel_and_formula_witness :
    get_price 0 1000 1000 = none ∧
    get_price 100 1000 1000 = some (997 * 100 * 1000 / (1000 * 1000 + 997 * 100)) :=
  ⟨get_price_sentinel_and_formula.1 0 1000 1000 (Or.inl rfl),
   get_price_sentinel_and_formula.2 100 1000 1000 (by decide) (by decide)
     (by decide) (by decide) (by decide) (by decide) (by decide)⟩

/-- C10: a successful quote is strictly below the output reserve, so the
output-reserve-sufficiency checks in the two trade dispatchables can never
be the failing check once the quote has succeeded. -/
theorem quote_below_output_reserve {A : Type} [DecidableEq A] :
    (∀ x g t v : ℕ, get_price x g t = some v → v < t) ∧
    (∀ (s : St A) (sender : A) (x : ℕ),
      (trade_glmr_to_token s sender x).res ≠
        Except.error "Not enough tokens to execute trade") ∧
    (∀ (s : St A) (sender : A) (x : ℕ),
      (trade_token_to_glmr s sender x).res ≠
        Except.error "Not enough glmr to execute trade") := by
  refine ⟨fun x g t v h => get_price_lt_output h, ?_, ?_⟩
  · intro s sender x hcontra
    simp only [trade_glmr_to_token] at hcontra
    split at hcontra
    next hq => simp [txErr] at hcontra
    next v hq =>
      split at hcontra
      case isFalse => simp [txErr] at hcontra
      case isTrue hbal =>
        split at hcontra
        case isTrue hres =>
          split at hcontra
          next => simp [txErr] at hcontra
          next gnew hga =>
            split at hcontra
            next => simp [txErr] at hcontra
            next tnew hta => simp [txOk] at hcontra
        case isFalse hres =>
          exact hres (get_price_lt_output hq).le
  · intro s sender x hcontra
    simp only [trade_token_to_glmr] at hcontra
    split at hcontra
    next hq => simp [txErr] at hcontra
    next v hq =>
      split at hcontra
      case isFalse => simp [txErr] at hcontra
      case isTrue hbal =>
        split at hcontra
        case isTrue hres =>
          split at hcontra
          next => simp [txErr] at hcontra
          next tnew hta =>
            split at hcontra
            next => simp [txErr] at hcontra
            next gnew hga => simp [txOk] at hcontra
        case isFalse hres =>
          exact hres (get_price_lt_output hq).le

/-- Witness for C10: at `(100, 1000, 1000)` the quote 90 is strictly below
the output reserve 1000. -/
theorem quote_below_output_reserve_witness : (90 : ℕ) < 1000 :=
  (quote_below_output_reserve (A := Fin 2)).1 100 1000 1000 90 (by decide)

/-- C2: a committed trade in either direction, from a state with positive
reserves and a positive input amount, strictly increases the product of the
two reserves; in particular the quote at reserves `(1000, 1000)` for 100
input units is exactly `floor(100*997*1000 / (1000*1000 + 100*997))`. -/
theorem swap_strictly_increases_reserve_product {A : Type} [DecidableEq A] :
    (∀ (s : St A) (sender : A) (x : ℕ) (r : Tx A),
      0 < s.glmrPoolBalance → 0 < s.tokenPoolBalance → 0 < x →
      trade_glmr_to_token s sender x = r → r.res = Except.ok () →
      s.glmrPoolBalance * s.tokenPoolBalance <
        r.state.glmrPoolBalance * r.state.tokenPoolBalance) ∧
    (∀ (s : St A) (sender : A) (x : ℕ) (r : Tx A),
      0 < s.glmrPoolBalance → 0 < s.tokenPoolBalance → 0 < x →
      trade_token_to_glmr s sender x = r → r.res = Except.ok () →
      s.glmrPoolBalance * s.tokenPoolBalance <
        r.state.glmrPoolBalance * r.state.tokenPoolBalance) ∧
    get_price 100 1000 1000 =
      some (100 * 997 * 1000 / (1000 * 1000 + 100 * 997)) := by
  refine ⟨?_, ?_, by decide⟩
  · intro s sender x r h0g h0t h0x heq hok
    simp only [trade_glmr_to_token] at heq
    split at heq
    next hq => subst heq; simp [txErr] at hok
    next v hq =>
      split at heq
      case isFalse => subst heq; simp [txErr] at hok
      case isTrue hbal =>
        split at heq
        case isFalse => subst heq; simp [txErr] at hok
        case isTrue hres =>
          split at heq
          next hga => subst heq; simp [txErr] at hok
          next gnew hga =>
            split at heq
            next hta => subst heq; simp [txErr] at hok
            next tnew hta =>
              subst heq
              obtain ⟨rfl, -⟩ := checkedAdd_some hga
              obtain ⟨hx, hg, ht, hv, -⟩ := get_price_some hq
              have hvt : v < s.tokenPoolBalance := get_price_lt_output hq
              simp only [txOk, update_prices_glmrPoolBalance,
                update_prices_tokenPoolBalance]
              exact product_grows hg ht hx hv hvt
  · intro s sender x r h0g h0t h0x heq hok
    simp only [trade_token_to_glmr] at heq
    split at heq
    next hq => subst heq; simp [txErr] at hok
    next v hq =>
      split at heq
      case isFalse => subst heq; simp [txErr] at hok
      case isTrue hbal =>
        split at heq
        case isFalse => subst heq; simp [txErr] at hok
        case isTrue hres =>
          split at heq
          next hta => subst heq; simp [txErr] at hok
          next tnew hta =>
            split at heq
            next hga => subst heq; simp [txErr] at hok
            next gnew hga =>
              subst heq
              obtain ⟨rfl, -⟩ := checkedAdd_some hta
              obtain ⟨hx, hti, hgo, hv, -⟩ := get_price_some hq
              have hvg : v < s.glmrPoolBalance := get_price_lt_output hq
              have hp := product_grows hti hgo hx hv hvg
              simp only [txOk, update_prices_glmrPoolBalance,
                update_prices_tokenPoolBalance]
              calc s.glmrPoolBalance * s.tokenPoolBalance
                  = s.tokenPoolBalance * s.glmrPoolBalance := Nat.mul_comm _ _
                _ < (s.tokenPoolBalance + x) * (s.glmrPoolBalance - v) := hp
                _ = (s.glmrPoolBalance - v) * (s.tokenPoolBalance + x) :=
                    Nat.mul_comm _ _

/-- Witness for C2: trading 100 glmr into the `(1000, 1000)` pool commits
and strictly grows the reserve product. -/
theorem swap_strictly_increases_reserve_product_witness :
    tradeFixtureSt.glmrPoolBalance * tradeFixtureSt.tokenPoolBalance <
      (trade_glmr_to_token tradeFixtureSt 0 100).state.glmrPoolBalance *
        (trade_glmr_to_token tradeFixtureSt 0 100).state.tokenPoolBalance :=
  (swap_strictly_increases_reserve_product (A := Fin 2)).1 tradeFixtureSt 0 100 _
    (by decide) (by decide) (by decide) rfl rfl

/-- C9: a dispatch that returns an error leaves the whole storage state —
every balance map, both reserves, the liquid supply and the price
snapshot — identical to its pre-call value and emits no event. -/
theorem failed_dispatch_is_a_no_op {A : Type} [DecidableEq A] (s : St A)
    (op : Op A) (r : Tx A) (e : String)
    (heq : applyOp s op = r) (herr : r.res = Except.error e) :
    r.state = s ∧ r.events = [] := by
  cases op <;>
    simp only [applyOp, set_glmr_balance, set_token_balance, transfer_glmr,
      transfer_token, transfer_liquid, deposit_liquidity, withdraw_liquidity,
      trade_glmr_to_token, trade_token_to_glmr] at heq <;>
    (repeat' split at heq) <;>
    subst heq <;>
    first
      | exact absurd herr (by simp [txOk])
      | exact ⟨rfl, rfl⟩

/-- Witness for C9: withdrawing from the uninitialized pool fails and
leaves the initial state untouched. -/
theorem failed_dispatch_is_a_no_op_witness :
    (applyOp (initSt (Fin 2)) (Op.withdrawLiquidity 0 1)).state = initSt (Fin 2) ∧
    (applyOp (initSt (Fin 2)) (Op.withdrawLiquidity 0 1)).events = [] :=
  failed_dispatch_is_a_no_op (initSt (Fin 2)) (Op.withdrawLiquidity 0 1) _
    "Not enough liquidity in pool to withdraw" rfl rfl

/-- Counterexample to C1 as stated: a privileged transfer with
`from = to` commits and **increases** the glmr total from 5 to 6, because
the recipient balance is read before the sender is debited. -/
theorem self_transfer_breaks_conservation :
    (transfer_glmr selfTransferSt 0 0 1).res = Except.ok () ∧
    glmrTotal selfTransferSt = 5 ∧
    glmrTotal (transfer_glmr selfTransferSt 0 0 1).state = 6 :=
  ⟨rfl, by decide, by decide⟩

/-- C1 (amended): per-asset totals (account balances plus reserve) are
conserved by every committed `deposit_liquidity` whose bootstrap path
starts from zero reserves, by every committed `withdraw_liquidity` and
trade, and by every committed privileged transfer between **distinct**
accounts whose credited balance does not saturate. -/
theorem asset_totals_conserved {A : Type} [DecidableEq A] [Fintype A] :
    (∀ (s : St A) (sender : A) (gv tv : ℕ) (r : Tx A),
      deposit_liquidity s sender gv tv = r → r.res = Except.ok () →
      (0 < s.totalLiquidSupply ∨
        (s.glmrPoolBalance = 0 ∧ s.tokenPoolBalance = 0)) →
      glmrTotal r.state = glmrTotal s ∧ tokenTotal r.state = tokenTotal s) ∧
    (∀ (s : St A) (sender : A) (lv : ℕ) (r : Tx A),
      withdraw_liquidity s sender lv = r → r.res = Except.ok () →
      glmrTotal r.state = glmrTotal s ∧ tokenTotal r.state = tokenTotal s) ∧
    (∀ (s : St A) (sender : A) (gv : ℕ) (r : Tx A),
      trade_glmr_to_token s sender gv = r → r.res = Except.ok () →
      glmrTotal r.state = glmrTotal s ∧ tokenTotal r.state = tokenTotal s) ∧
    (∀ (s : St A) (sender : A) (tv : ℕ) (r : Tx A),
      trade_token_to_glmr s sender tv = r → r.res = Except.ok () →
      glmrTotal r.state = glmrTotal s ∧ tokenTotal r.state = tokenTotal s) ∧
    (∀ (s : St A) (src dst : A) (amt : ℕ) (r : Tx A),
      transfer_glmr s src dst amt = r → r.res = Except.ok () →
      src ≠ dst → balOf s.glmrBalances dst + amt < BMAX →
      glmrTotal r.state = glmrTotal s ∧ tokenTotal r.state = tokenTotal s) ∧
    (∀ (s : St A) (src dst : A) (amt : ℕ) (r : Tx A),
      transfer_token s src dst amt = r → r.res = Except.ok () →
      src ≠ dst → balOf s.tokenBalances dst + amt < BMAX →
      glmrTotal r.state = glmrTotal s ∧ tokenTotal r.state = tokenTotal s) := by
  refine ⟨?_, ?_, ?_, ?_, ?_, ?_⟩
  · intro s sender gv tv r heq hok hpre
    simp only [deposit_liquidity] at heq
    split at heq
    case isFalse => subst heq; simp [txErr] at hok
    case isTrue hgb =>
      split at heq
      case isFalse => subst heq; simp [txErr] at hok
      case isTrue htb =>
        split at heq
        case isTrue hsup =>
          split at heq
          case isFalse => subst heq; simp [txErr] at hok
          case isTrue hgr =>
            split at heq
            case isFalse => subst heq; simp [txErr] at hok
            case isTrue hta =>
              split at heq
              next hga => subst heq; simp [txErr] at hok
              next gnew hga =>
                split at heq
                next htn => subst heq; simp [txErr] at hok
                next tnew htn =>
                  split at heq
                  next hln => subst heq; simp [txErr] at hok
                  next lnew hln =>
                    split at heq
                    next hsn => subst heq; simp [txErr] at hok
                    next snew hsn =>
                      subst heq
                      obtain ⟨rfl, -⟩ := checkedAdd_some hga
                      obtain ⟨rfl, -⟩ := checkedAdd_some htn
                      constructor
                      · simp only [txOk, glmrTotal, update_prices_glmrBalances,
                          update_prices_glmrPoolBalance]
                        have h1 := sumBal_mapInsert s.glmrBalances sender
                          (balOf s.glmrBalances sender - gv)
                        omega
                      · simp only [txOk, tokenTotal, update_prices_tokenBalances,
                          update_prices_tokenPoolBalance]
                        have h2 := sumBal_mapInsert s.tokenBalances sender
                          (balOf s.tokenBalances sender -
                            rawAdd (rawMul gv s.tokenPoolBalance /
                              s.glmrPoolBalance) 1)
                        omega
        case isFalse hsup =>
          subst heq
          have hz : s.glmrPoolBalance = 0 ∧ s.tokenPoolBalance = 0 := by
            rcases hpre with h | h
            · omega
            · exact h
          constructor
          · simp only [txOk, glmrTotal, update_prices_glmrBalances,
              update_prices_glmrPoolBalance]
            have h1 := sumBal_mapInsert s.glmrBalances sender
              (balOf s.glmrBalances sender - gv)
            omega
          · simp only [txOk, tokenTotal, update_prices_tokenBalances,
              update_prices_tokenPoolBalance]
            have h2 := sumBal_mapInsert s.tokenBalances sender
              (balOf s.tokenBalances sender - tv)
            omega
  · intro s sender lv r heq hok
    simp only [withdraw_liquidity] at heq
    split at heq
    case isFalse => subst heq; simp [txErr] at hok
    case isTrue hsup =>
      split at heq
      case isFalse => subst heq; simp [txErr] at hok
      case isTrue hlb =>
        split at heq
        case isFalse => subst heq; simp [txErr] at hok
        case isTrue hga =>
          split at heq
          case isFalse => subst heq; simp [txErr] at hok
          case isTrue hta =>
            split at heq
            next hgn => subst heq; simp [txErr] at hok
            next gnew hgn =>
              split at heq
              next htn => subst heq; simp [txErr] at hok
              next tnew htn =>
                subst heq
                obtain ⟨rfl, -⟩ := checkedAdd_some hgn
                obtain ⟨rfl, -⟩ := checkedAdd_some htn
                constructor
                · simp only [txOk, glmrTotal, update_prices_glmrBalances,
                    update_prices_glmrPoolBalance]
                  have h1 := sumBal_mapInsert s.glmrBalances sender
                    (balOf s.glmrBalances sender +
                      rawMul lv s.glmrPoolBalance / s.totalLiquidSupply)
                  omega
                · simp only [txOk, tokenTotal, update_prices_tokenBalances,
                    update_prices_tokenPoolBalance]
                  have h2 := sumBal_mapInsert s.tokenBalances sender
                    (balOf s.tokenBalances sender +
                      rawMul lv s.tokenPoolBalance / s.totalLiquidSupply)
                  omega
  · intro s sender gv r heq hok
    simp only [trade_glmr_to_token] at heq
    split at heq
    next hq => subst heq; simp [txErr] at hok
    next v hq =>
      split at heq
      case isFalse => subst heq; simp [txErr] at hok
      case isTrue hbal =>
        split at heq
        case isFalse => subst heq; simp [txErr] at hok
        case isTrue hres =>
          split at heq
          next hga => subst heq; simp [txErr] at hok
          next gnew hga =>
            split at heq
            next hta => subst heq; simp [txErr] at hok
            next tnew hta =>
              subst heq
              obtain ⟨rfl, -⟩ := checkedAdd_some hga
              obtain ⟨rfl, -⟩ := checkedAdd_some hta
              constructor
              · simp only [txOk, glmrTotal, update_prices_glmrBalances,
                  update_prices_glmrPoolBalance]
                have h1 := sumBal_mapInsert s.glmrBalances sender
                  (balOf s.glmrBalances sender - gv)
                omega
              · simp only [txOk, tokenTotal, update_prices_tokenBalances,
                  update_prices_tokenPoolBalance]
                have h2 := sumBal_mapInsert s.tokenBalances sender
                  (balOf s.tokenBalances sender + v)
                omega
  · intro s sender tv r heq hok
    simp only [trade_token_to_glmr] at heq
    split at heq
    next hq => subst heq; simp [txErr] at hok
    next v hq =>
      split at heq
      case isFalse => subst heq; simp [txErr] at hok
      case isTrue hbal =>
        split at heq
        case isFalse => subst heq; simp [txErr] at hok
        case isTrue hres =>
          split at heq
          next hta => subst heq; simp [txErr] at hok
          next tnew hta =>
            split at heq
            next hga => subst heq; simp [txErr] at hok
            next gnew hga =>
              subst heq
              obtain ⟨rfl, -⟩ := checkedAdd_some hta
              obtain ⟨rfl, -⟩ := checkedAdd_some hga
              constructor
              · simp only [txOk, glmrTotal, update_prices_glmrBalances,
                  update_prices_glmrPoolBalance]
                have h1 := sumBal_mapInsert s.glmrBalances sender
                  (balOf s.glmrBalances sender + v)
                omega
              · simp only [txOk, tokenTotal, update_prices_tokenBalances,
                  update_prices_tokenPoolBalance]
                have h2 := sumBal_mapInsert s.tokenBalances sender
                  (balOf s.tokenBalances sender - tv)
                omega
  · intro s src dst amt r heq hok hne hsat
    simp only [transfer_glmr] at heq
    split at heq
    case isFalse => subst heq; simp [txErr] at hok
    case isTrue hex =>
      split at heq
      case isFalse => subst heq; simp [txErr] at hok
      case isTrue hfb =>
        subst heq
        constructor
        · simp only [txOk, glmrTotal]
          have hsa : satAdd (balOf s.glmrBalances dst) amt =
              balOf s.glmrBalances dst + amt := by
            rw [satAdd, min_eq_left (by omega)]
          rw [hsa]
          have h1 := sumBal_mapInsert s.glmrBalances src
            (balOf s.glmrBalances src - amt)
          have h2 := sumBal_mapInsert
            (mapInsert s.glmrBalances src (balOf s.glmrBalances src - amt)) dst
            (balOf s.glmrBalances dst + amt)
          have h3 : balOf (mapInsert s.glmrBalances src
              (balOf s.glmrBalances src - amt)) dst = balOf s.glmrBalances dst :=
            balOf_mapInsert_ne _ _ (Ne.symm hne)
          omega
        · simp only [txOk, tokenTotal]
  · intro s src dst amt r heq hok hne hsat
    simp only [transfer_token] at heq
    split at heq
    case isFalse => subst heq; simp [txErr] at hok
    case isTrue hex =>
      split at heq
      case isFalse => subst heq; simp [txErr] at hok
      case isTrue hfb =>
        subst heq
        constructor
        · simp only [txOk, glmrTotal]
        · simp only [txOk, tokenTotal]
          have hsa : satAdd (balOf s.tokenBalances dst) amt =
              balOf s.tokenBalances dst + amt := by
            rw [satAdd, min_eq_left (by omega)]
          rw [hsa]
          have h1 := sumBal_mapInsert s.tokenBalances src
            (balOf s.tokenBalances src - amt)
          have h2 := sumBal_mapInsert
            (mapInsert s.tokenBalances src (balOf s.tokenBalances src - amt)) dst
            (balOf s.tokenBalances dst + amt)
          have h3 : balOf (mapInsert s.tokenBalances src
              (balOf s.tokenBalances src - amt)) dst = balOf s.tokenBalances dst :=
            balOf_mapInsert_ne _ _ (Ne.symm hne)
          omega

/-- Witness for C1 (amended): the bootstrap deposit of `(5, 5)` from
`pairSt` conserves the glmr total. -/
theorem asset_totals_conserved_witness :
    glmrTotal (deposit_liquidity pairSt 0 5 5).state = glmrTotal pairSt :=
  (asset_totals_conserved.1 pairSt 0 5 5 _ rfl rfl (Or.inr ⟨rfl, rfl⟩)).1

/-- C3: the proportional-deposit formula multiplies balances with the raw
native operators; at `overflowSt` the mathematical product
`glmr_value * token_reserve = 2^64` exceeds the balance width, yet the
deposit **commits** (deducting a wrapped token amount of 1) instead of
surfacing an arithmetic error. -/
theorem unchecked_deposit_multiplication_commits :
    BMAX ≤ 2 ^ 32 * overflowSt.tokenPoolBalance ∧
    rawMul (2 ^ 32) overflowSt.tokenPoolBalance = 0 ∧
    (deposit_liquidity overflowSt 0 (2 ^ 32) 0).res = Except.ok () ∧
    (deposit_liquidity overflowSt 0 (2 ^ 32) 0).state.tokenPoolBalance =
      2 ^ 32 + 1 ∧
    balOf (deposit_liquidity overflowSt 0 (2 ^ 32) 0).state.tokenBalances 0 = 0 :=
  ⟨by decide, by decide, rfl, by decide, by decide⟩

/-- C4: `deposit_liquidity` never validates `glmr_value > 0`: from
`tokenOnlySt` a deposit of `(0, 5)` **commits**, moves the sender's 5
tokens into the reserve, and mints nothing — instead of failing with the
state unchanged. -/
theorem zero_base_deposit_commits :
    (deposit_liquidity tokenOnlySt 0 0 5).res = Except.ok () ∧
    tokenOnlySt.tokenPoolBalance = 0 ∧
    (deposit_liquidity tokenOnlySt 0 0 5).state.tokenPoolBalance = 5 ∧
    (deposit_liquidity tokenOnlySt 0 0 5).state.totalLiquidSupply = 0 ∧
    balOf tokenOnlySt.tokenBalances 0 = 5 ∧
    balOf (deposit_liquidity tokenOnlySt 0 0 5).state.tokenBalances 0 = 0 :=
  ⟨rfl, rfl, by decide, rfl, by decide, by decide⟩

/-- C5: a state with positive liquid supply and a **zero** token reserve is
reachable from the all-zero initial state by committed operations
(`set_glmr_balance(0, 5)` then the bootstrap `deposit_liquidity(0, 5, 0)`),
so the claimed supply/reserve invariant does not hold. -/
theorem lopsided_bootstrap_reachable :
    Reaches (initSt (Fin 2)) lopsidedPoolSt ∧
    0 < lopsidedPoolSt.totalLiquidSupply ∧
    lopsidedPoolSt.tokenPoolBalance = 0 :=
  ⟨Reaches.step (Op.depositLiquidity 0 5 0)
      (Reaches.step (Op.setGlmrBalance 0 5) (Reaches.refl _) rfl) rfl,
   by decide, rfl⟩

/-- C6: the privileged transfers use a strict `>` balance check, so
transferring an account's entire balance of 5 is rejected for all three
assets — the code forbids what the claim (and the spec's canonical design)
requires to succeed. -/
theorem entire_balance_transfer_rejected :
    balOf fullBalanceSt.glmrBalances 0 = 5 ∧
    (transfer_glmr fullBalanceSt 0 1 5).res =
      Except.error "Not enough glmr for transfer" ∧
    (transfer_token fullBalanceSt 0 1 5).res =
      Except.error "Not enough token for transfer" ∧
    (transfer_liquid fullBalanceSt 0 1 5).res =
      Except.error "Not enough liquid for transfer" :=
  ⟨by decide, rfl, rfl, rfl⟩

/-- C7: `withdraw_liquidity` never validates `0 < liquid_value`: from the
reachable live pool `seededPoolSt` a withdrawal of 0 **commits** and emits
a withdrawal event instead of failing. -/
theorem zero_liquid_withdraw_commits :
    Reaches (initSt (Fin 2)) seededPoolSt ∧
    0 < seededPoolSt.totalLiquidSupply ∧
    (withdraw_liquidity seededPoolSt 0 0).res = Except.ok () ∧
    (withdraw_liquidity seededPoolSt 0 0).events =
      [Event.WithdrawLiquidity 0 0] :=
  ⟨Reaches.step (Op.depositLiquidity 0 5 5)
      (Reaches.step (Op.setTokenBalance 0 5)
        (Reaches.step (Op.setGlmrBalance 0 5) (Reaches.refl _) rfl) rfl) rfl,
   by decide, rfl, by decide⟩

end Moonbeam
